import Mathlib

/-!
Verification of the game-engine SDK (`src/games/tic_tac_toe/sdk.py`).

The Python source is shallowly embedded: dictionaries become association
lists with overwrite-on-insert semantics (`alookup`/`ainsert`), fallible
operations (dict subscripts that can raise `KeyError`, `None + int` that
raises `TypeError`) return `Except PyError`, wall-clock time is passed as
an explicit rational parameter, and the Redis broker is modelled as the
list of `(channel, message)` pairs published so far.
-/

/-- Association list with Python-dict observable semantics: `alookup` finds
the binding for a key, `none` when absent. -/
def alookup {α : Type} : List (String × α) → String → Option α
  | [], _ => none
  | (k, v) :: rest, key => if k = key then some v else alookup rest key

/-- Insert with overwrite: `d[key] = val`. Keeps insertion order, replaces
an existing binding in place. -/
def ainsert {α : Type} : List (String × α) → String → α → List (String × α)
  | [], key, val => [(key, val)]
  | (k, v) :: rest, key, val =>
      if k = key then (k, val) :: rest else (k, v) :: ainsert rest key val

/-- Errors the embedded Python code can raise. -/
inductive PyError where
  | keyError
  | typeError
deriving DecidableEq, Repr

/-- JSON-like values, the payloads handed to `json.dumps` and the broker. -/
inductive JsonVal where
  | null
  | bool (b : Bool)
  | num (q : ℚ)
  | str (s : String)
  | obj (fields : List (String × JsonVal))

/-- Keys of a JSON object (empty for non-objects). -/
def objKeys : JsonVal → List String
  | .obj fields => fields.map (fun f => f.1)
  | _ => []

/-- Python's `round(x, 2)`: scale by 100, round half to even, scale back. -/
def pyRound2 (q : ℚ) : ℚ :=
  let scaled := q * 100
  let f : ℤ := Int.floor scaled
  let frac := scaled - f
  let r : ℤ :=
    if frac < 1/2 then f
    else if 1/2 < frac then f + 1
    else if f % 2 = 0 then f else f + 1
  (r : ℚ) / 100

/-- `RedisClient`: holds the session id; the broker connection is modelled
by the list of `(channel, message)` pairs published so far, in order. -/
structure RedisClient where
  session_id : String
  published : List (String × JsonVal)

/-- `RedisClient.__pack_message`: the JSON envelope, with the source's key
order `session_id, data, type, elapsed` and `elapsed` rounded to 2 places. -/
def pack_message (session_id : String) (type : String) (data : JsonVal)
    (elapsed_time : ℚ) : JsonVal :=
  .obj [("session_id", .str session_id), ("data", data), ("type", .str type),
        ("elapsed", .num (pyRound2 elapsed_time))]

/-- `RedisClient.send_message`: publish one packed message on the channel
`"game_engine_notifications"`. -/
def send_message (rc : RedisClient) (type : String) (elapsed_time : ℚ)
    (data : JsonVal := .obj []) : RedisClient :=
  { rc with published := rc.published ++
      [("game_engine_notifications", pack_message rc.session_id type data elapsed_time)] }

/-- `GameEnginePlayer`: identity and display name. The script reference is
owned by the external loader collaborator and carries no observable state
for the properties verified here. -/
structure GameEnginePlayer where
  id : String
  name : String
deriving DecidableEq, Repr

/-- `GameEngineTeam`: identity, display name, ordered players. -/
structure GameEngineTeam where
  id : String
  name : String
  players : List GameEnginePlayer
deriving DecidableEq, Repr

/-- `GameEngineClient`: session id, teams, the Redis client created with
the same session id, and the session start timestamp (initially `0`).
Wall-clock reads (`time.time()`) become explicit `now` parameters. -/
structure GameEngineClient where
  session_id : String
  teams : List GameEngineTeam
  redis : RedisClient
  start_time : ℚ

/-- `GameEngineClient.__init__` after the description is parsed (parsing is
an external collaborator): fresh Redis client, `start_time = 0`. -/
def mkClient (session_id : String) (teams : List GameEngineTeam) : GameEngineClient :=
  { session_id := session_id, teams := teams,
    redis := { session_id := session_id, published := [] }, start_time := 0 }

/-- `GameEngineClient.__elapsed`: `time.time() - self.__start_time`. -/
def GameEngineClient.elapsed (c : GameEngineClient) (now : ℚ) : ℚ :=
  now - c.start_time

/-- `GameEngineClient.send_event`: publish an `"event"` envelope whose data
is `{"type": event, "description": description}`, defaulting to `{}`. -/
def send_event (c : GameEngineClient) (now : ℚ) (event : String)
    (description : JsonVal := .obj []) : GameEngineClient :=
  { c with
      redis := send_message c.redis "event" (c.elapsed now)
        (.obj [("type", .str event), ("description", description)]) }

/-- `GameEngineClient.set_winner`: `send_event("winner", {"team_id": team.id})`. -/
def set_winner (c : GameEngineClient) (now : ℚ) (team : GameEngineTeam) : GameEngineClient :=
  send_event c now "winner" (.obj [("team_id", .str team.id)])

/-- `GameEngineClient.start`: record the start timestamp, then emit the
`"started"` event. -/
def start (c : GameEngineClient) (now : ℚ) : GameEngineClient :=
  send_event { c with start_time := now } now "started"

/-- `GameEngineClient.end`: emit the `"ended"` event. -/
def endSession (c : GameEngineClient) (now : ℚ) : GameEngineClient :=
  send_event c now "ended"

/-- `GameEngineStats`: teams, the per-player value dict keyed by player id,
and the declared parameter list. -/
structure GameEngineStats where
  teams : List GameEngineTeam
  players : List (String × List (String × Int))
  params : List String
deriving DecidableEq, Repr

/-- The dict comprehension `{param: 0 for param in params}`. -/
def zeroMap (params : List String) : List (String × Int) :=
  params.map (fun p => (p, 0))

/-- `GameEngineStats.set_params`: replace the parameter list and reset every
player of every team to a fresh zero map. -/
def set_params (s : GameEngineStats) (params : List String) : GameEngineStats :=
  { s with
      params := params,
      players := s.teams.foldl (fun acc team =>
        team.players.foldl (fun acc2 player => ainsert acc2 player.id (zeroMap params)) acc)
        s.players }

/-- `GameEngineStats.__init__`: store the teams, start from an empty player
dict and empty parameter list, then call `set_params`. -/
def mkStats (teams : List GameEngineTeam) (params : List String) : GameEngineStats :=
  set_params { teams := teams, players := [], params := [] } params

/-- `GameEngineStats.set_value`: if `param` is declared, write
`self.__players[player.id][param] = value` (the player lookup can raise
`KeyError`); otherwise fall through and return the state unchanged. -/
def set_value (s : GameEngineStats) (player : GameEnginePlayer) (param : String)
    (value : Int) : Except PyError GameEngineStats :=
  if param ∈ s.params then
    match alookup s.players player.id with
    | none => .error .keyError
    | some m => .ok { s with players := ainsert s.players player.id (ainsert m param value) }
  else .ok s

/-- `GameEngineStats.get_value`: if `param` is declared, return
`self.__players[player.id][param]` (either dict lookup can raise
`KeyError`); otherwise fall off the end and return `None`. -/
def get_value (s : GameEngineStats) (player : GameEnginePlayer) (param : String) :
    Except PyError (Option Int) :=
  if param ∈ s.params then
    match alookup s.players player.id with
    | none => .error .keyError
    | some m =>
        match alookup m param with
        | none => .error .keyError
        | some v => .ok (some v)
  else .ok none

/-- `GameEngineStats.add_value`:
`self.set_value(player, param, self.get_value(player, param) + value)`.
The argument `self.get_value(...) + value` is evaluated first; `None + value`
raises `TypeError` when the read came back absent. -/
def add_value (s : GameEngineStats) (player : GameEnginePlayer) (param : String)
    (value : Int) : Except PyError GameEngineStats :=
  match get_value s player param with
  | .error e => .error e
  | .ok none => .error .typeError
  | .ok (some current) => set_value s player param (current + value)

/-- A table cell: player/team names and the blank header cell are strings,
accumulated statistics are integers. -/
inductive Cell where
  | str (s : String)
  | int (n : Int)
deriving DecidableEq, Repr

/-- One rendered row: `{"type": ..., "cols": [...]}`. -/
structure TableRow where
  type : String
  cols : List Cell
deriving DecidableEq, Repr

/-- A single table access `self.__players[pid][param]`: either dict lookup
raises `KeyError` when the key is absent. -/
def cellValue (s : GameEngineStats) (pid param : String) : Except PyError Int :=
  match alookup s.players pid with
  | none => .error .keyError
  | some m =>
      match alookup m param with
      | none => .error .keyError
      | some v => .ok v

/-- A `for` loop building a list, short-circuiting on a raised error. -/
def mapME {α β : Type} (f : α → Except PyError β) : List α → Except PyError (List β)
  | [] => .ok []
  | x :: xs =>
      match f x with
      | .error e => .error e
      | .ok y =>
          match mapME f xs with
          | .error e => .error e
          | .ok ys => .ok (y :: ys)

/-- A `for` loop accumulating a value, short-circuiting on a raised error. -/
def foldlME {α β : Type} (f : β → α → Except PyError β) (init : β) :
    List α → Except PyError β
  | [] => .ok init
  | x :: xs =>
      match f init x with
      | .error e => .error e
      | .ok acc => foldlME f acc xs

/-- `GameEngineStats.get_table`: the header row (blank cell `" "` then the
parameter names), then per team in order: a subheader with per-parameter
sums when the team has more than one player, then one row per player. -/
def get_table (s : GameEngineStats) : Except PyError (List TableRow) :=
  match mapME (fun team =>
      match
        (if team.players.length > 1 then
          match mapME (fun param =>
              foldlME (fun acc player =>
                  match cellValue s player.id param with
                  | .error e => .error e
                  | .ok v => .ok (acc + v)) 0 team.players) s.params with
          | .error e => .error e
          | .ok sums =>
              .ok [{ type := "subheader", cols := Cell.str team.name :: sums.map Cell.int }]
        else .ok [] : Except PyError (List TableRow)) with
      | .error e => .error e
      | .ok subRows =>
          match mapME (fun player =>
              match mapME (fun param => cellValue s player.id param) s.params with
              | .error e => .error e
              | .ok vals =>
                  .ok { type := "row", cols := Cell.str player.name :: vals.map Cell.int })
            team.players with
          | .error e => .error e
          | .ok playerRows => .ok (subRows ++ playerRows)) s.teams with
  | .error e => .error e
  | .ok body =>
      .ok ({ type := "header", cols := Cell.str " " :: s.params.map Cell.str } :: body.flatten)

/-- A player's stored value seen totally: `0` stands in for a value an
ill-formed state would fail to look up. On well-formed states this agrees
with `cellValue`. -/
def statValue (s : GameEngineStats) (pid param : String) : Int :=
  ((alookup s.players pid).bind (fun m => alookup m param)).getD 0

/-- Every player of every team is present in the table with every declared
parameter present — the shape `set_params` establishes and `set_value` /
`add_value` preserve. -/
def WellFormed (s : GameEngineStats) : Prop :=
  ∀ team ∈ s.teams, ∀ player ∈ team.players, ∀ param ∈ s.params,
    ((alookup s.players player.id).bind (fun m => alookup m param)).isSome = true

instance (s : GameEngineStats) : Decidable (WellFormed s) := by
  unfold WellFormed
  infer_instance

/-- The rendered-table layout stated from the spec: header with the
parameter names, then for each team a subheader (only when the team has
more than one player) holding per-parameter sums over its players, then
one row per player with that player's values. -/
def specRender (s : GameEngineStats) : List TableRow :=
  { type := "header", cols := Cell.str " " :: s.params.map Cell.str } ::
    (s.teams.map (fun team =>
      (if team.players.length > 1 then
        [{ type := "subheader",
           cols := Cell.str team.name ::
             s.params.map (fun param =>
               Cell.int ((team.players.map (fun pl => statValue s pl.id param)).sum)) }]
      else []) ++
      team.players.map (fun pl =>
        { type := "row",
          cols := Cell.str pl.name ::
            s.params.map (fun param => Cell.int (statValue s pl.id param)) }))).flatten

/-- The cross-process mailbox (`manager.dict()`), initialised by
`timeout_run` to `result = None`, `exception = None`, `finished = False`. -/
structure Mailbox (α ε : Type) where
  result : Option α
  exception : Option ε
  finished : Bool

/-- The mailbox as `timeout_run` initialises it. -/
def initMailbox {α ε : Type} : Mailbox α ε :=
  { result := none, exception := none, finished := false }

/-- `__proccess_wrapper`: run the call; on success record the result, on an
exception record it; either way set the completion flag last. The `call`
argument is the behaviour of `getattr(module, function_name)(*args)`. -/
def proccess_wrapper {α ε : Type} (call : Except ε α) (d : Mailbox α ε) : Mailbox α ε :=
  match call with
  | .ok v => { d with result := some v, finished := true }
  | .error e => { d with exception := some e, finished := true }

/-- Invocation outcome: `timeout_run` raises `TimeoutError`, re-raises the
worker's exception, or returns the recorded result. -/
inductive RunOutcome (α ε : Type) where
  | timedOut
  | raised (e : ε)
  | returned (v : Option α)

/-- The decision `timeout_run` takes on the mailbox after the join:
`if not finished: raise TimeoutError`, `if exception: raise it`, else
`return result`. -/
def decideOutcome {α ε : Type} (d : Mailbox α ε) : RunOutcome α ε :=
  if d.finished = false then .timedOut
  else
    match d.exception with
    | some e => .raised e
    | none => .returned d.result

/-- `timeout_run`: initialise the mailbox, run the worker (which either
finishes within the timeout and fills the mailbox, or is terminated with
the mailbox still in its initial state), then decide from the mailbox. -/
def timeout_run {α ε : Type} (call : Except ε α) (finishesInTime : Bool) : RunOutcome α ε :=
  decideOutcome (if finishesInTime then proccess_wrapper call initMailbox else initMailbox)

/-- The last message published by a client, if any. -/
def lastMessage (c : GameEngineClient) : Option JsonVal :=
  (c.redis.published.getLast?).map (fun pr => pr.2)

/-- Extract the `elapsed` field of an envelope. -/
def elapsedField : JsonVal → Option ℚ
  | .obj fields =>
      match alookup fields "elapsed" with
      | some (.num q) => some q
      | _ => none
  | _ => none

/-- All player ids appearing in a team list, in iteration order. -/
def allIds (teams : List GameEngineTeam) : List String :=
  (teams.map (fun t => t.players.map (fun p => p.id))).flatten

/-- A reachable stats state used as concrete test data: the spec's worked
example — one two-player team with `a = 1, 2` and one single-player team
with `a = 5`. It equals
`mkStats [exTeam1, exTeam2] ["a"]` after setting those three values. -/
def exP1 : GameEnginePlayer := { id := "p1", name := "Alice" }

def exP2 : GameEnginePlayer := { id := "p2", name := "Bob" }

def exP3 : GameEnginePlayer := { id := "p3", name := "Carol" }

def exTeam1 : GameEngineTeam := { id := "t1", name := "Reds", players := [exP1, exP2] }

def exTeam2 : GameEngineTeam := { id := "t2", name := "Blues", players := [exP3] }

def exStats : GameEngineStats :=
  { teams := [exTeam1, exTeam2],
    players := [("p1", [("a", 1)]), ("p2", [("a", 2)]), ("p3", [("a", 5)])],
    params := ["a"] }

/-- The state `set_value exStats exP1 "a" 7` produces. -/
def exStats7 : GameEngineStats :=
  { teams := [exTeam1, exTeam2],
    players := [("p1", [("a", 7)]), ("p2", [("a", 2)]), ("p3", [("a", 5)])],
    params := ["a"] }

/-- A player never seeded into any team of `exStats`. -/
def exGhost : GameEnginePlayer := { id := "ghost", name := "Ghost" }

theorem alookup_ainsert_self {α : Type} (l : List (String × α)) (k : String) (v : α) :
    alookup (ainsert l k v) k = some v := by
  induction l with
  | nil => simp [ainsert, alookup]
  | cons hd tl ih =>
      obtain ⟨k', v'⟩ := hd
      by_cases hk : k' = k
      · simp [ainsert, alookup, hk]
      · simp [ainsert, alookup, hk, ih]

theorem alookup_ainsert_ne {α : Type} (l : List (String × α)) (k k' : String) (v : α)
    (h : k ≠ k') : alookup (ainsert l k v) k' = alookup l k' := by
  induction l with
  | nil => simp [ainsert, alookup, h]
  | cons hd tl ih =>
      obtain ⟨k0, v0⟩ := hd
      by_cases hk : k0 = k
      · subst hk
        simp [ainsert, alookup, h]
      · by_cases hk' : k0 = k'
        · subst hk'
          simp [ainsert, alookup, hk, Ne.symm h]
        · simp [ainsert, alookup, hk, hk', ih]

theorem alookup_foldl_players (m : List (String × Int)) (pls : List GameEnginePlayer)
    (acc : List (String × List (String × Int))) (pid : String) :
    alookup (pls.foldl (fun a pl => ainsert a pl.id m) acc) pid =
      if pid ∈ pls.map (fun p => p.id) then some m else alookup acc pid := by
  induction pls generalizing acc with
  | nil => simp
  | cons pl rest ih =>
      simp only [List.foldl_cons, List.map_cons, List.mem_cons]
      rw [ih]
      by_cases hmem : pid ∈ rest.map (fun p => p.id)
      · simp [hmem]
      · by_cases hpid : pid = pl.id
        · subst hpid
          simp [hmem, alookup_ainsert_self]
        · simp [hmem, hpid, alookup_ainsert_ne _ _ _ _ (fun hh => hpid hh.symm)]

theorem mem_allIds_cons (t : GameEngineTeam) (rest : List GameEngineTeam) (pid : String) :
    pid ∈ allIds (t :: rest) ↔
      pid ∈ t.players.map (fun p => p.id) ∨ pid ∈ allIds rest := by
  simp [allIds]

theorem alookup_foldl_teams (m : List (String × Int)) (teams : List GameEngineTeam)
    (acc : List (String × List (String × Int))) (pid : String) :
    alookup (teams.foldl (fun a t =>
        t.players.foldl (fun a2 pl => ainsert a2 pl.id m) a) acc) pid =
      if pid ∈ allIds teams then some m else alookup acc pid := by
  induction teams generalizing acc with
  | nil => simp [allIds]
  | cons t rest ih =>
      simp only [List.foldl_cons]
      rw [ih, alookup_foldl_players]
      by_cases h1 : pid ∈ allIds rest
      · simp [mem_allIds_cons, h1]
      · by_cases h2 : pid ∈ t.players.map (fun p => p.id)
        · simp [mem_allIds_cons, h1, h2]
        · simp [mem_allIds_cons, h1, h2]

theorem set_params_lookup (s : GameEngineStats) (ps : List String) (pid : String) :
    alookup (set_params s ps).players pid =
      if pid ∈ allIds s.teams then some (zeroMap ps) else alookup s.players pid := by
  unfold set_params
  exact alookup_foldl_teams _ _ _ _

theorem mem_allIds {teams : List GameEngineTeam} {team : GameEngineTeam}
    {pl : GameEnginePlayer} (ht : team ∈ teams) (hp : pl ∈ team.players) :
    pl.id ∈ allIds teams := by
  refine List.mem_flatten.mpr ⟨team.players.map (fun p => p.id), ?_, ?_⟩
  · exact List.mem_map_of_mem _ ht
  · exact List.mem_map_of_mem _ hp

theorem zeroMap_alookup (ps : List String) (q : String) :
    alookup (zeroMap ps) q = if q ∈ ps then some 0 else none := by
  induction ps with
  | nil => simp [zeroMap, alookup]
  | cons p rest ih =>
      simp only [zeroMap, List.map_cons, alookup, List.mem_cons] at ih ⊢
      by_cases h : p = q
      · simp [h]
      · rw [if_neg h, ih]
        by_cases hq : q ∈ rest
        · simp [hq]
        · simp [hq, Ne.symm h]

theorem mapME_congr_ok {α β : Type} {f : α → Except PyError β} {g : α → β}
    {l : List α} (h : ∀ x ∈ l, f x = .ok (g x)) : mapME f l = .ok (l.map g) := by
  induction l with
  | nil => simp [mapME]
  | cons x xs ih =>
      simp only [mapME, List.map_cons]
      rw [h x (List.mem_cons_self x xs), ih (fun y hy => h y (List.mem_cons_of_mem x hy))]

theorem foldlME_congr_ok {α β : Type} {f : β → α → Except PyError β} {g : β → α → β}
    {l : List α} (h : ∀ b, ∀ x ∈ l, f b x = .ok (g b x)) (init : β) :
    foldlME f init l = .ok (l.foldl g init) := by
  induction l generalizing init with
  | nil => simp [foldlME]
  | cons x xs ih =>
      simp only [foldlME, List.foldl_cons]
      rw [h init x (List.mem_cons_self x xs)]
      exact ih (fun b y hy => h b y (List.mem_cons_of_mem x hy)) (g init x)

theorem foldl_add_eq_sum {α : Type} (f : α → Int) (l : List α) (a : Int) :
    l.foldl (fun acc x => acc + f x) a = a + (l.map f).sum := by
  induction l generalizing a with
  | nil => simp
  | cons x xs ih =>
      simp only [List.foldl_cons, List.map_cons, List.sum_cons]
      rw [ih]
      ring

theorem cellValue_ok {s : GameEngineStats} {team : GameEngineTeam}
    {pl : GameEnginePlayer} {param : String} (hwf : WellFormed s)
    (ht : team ∈ s.teams) (hp : pl ∈ team.players) (hq : param ∈ s.params) :
    cellValue s pl.id param = .ok (statValue s pl.id param) := by
  have hsome := hwf team ht pl hp param hq
  unfold cellValue statValue
  cases h1 : alookup s.players pl.id with
  | none => rw [h1] at hsome; simp at hsome
  | some m =>
      rw [h1] at hsome
      simp only [Option.some_bind] at hsome
      cases h2 : alookup m param with
      | none => rw [h2] at hsome; simp at hsome
      | some v => simp [h2]

theorem set_value_preserves_wf (s s' : GameEngineStats) (p : GameEnginePlayer)
    (param : String) (v : Int) (hwf : WellFormed s)
    (h : set_value s p param v = .ok s') : WellFormed s' := by
  unfold WellFormed at hwf ⊢
  unfold set_value at h
  by_cases hq : param ∈ s.params
  · rw [if_pos hq] at h
    cases hm : alookup s.players p.id with
    | none =>
        rw [hm] at h
        exact absurd h (by simp)
    | some m =>
        rw [hm] at h
        have hs' : s' = { s with players := ainsert s.players p.id (ainsert m param v) } := by
          have := h
          simp only [Except.ok.injEq] at this
          exact this.symm
        subst hs'
        intro team hteam pl hpl q hqmem
        by_cases hid : pl.id = p.id
        · rw [hid, alookup_ainsert_self]
          simp only [Option.some_bind]
          by_cases hq2 : q = param
          · subst hq2
            simp [alookup_ainsert_self]
          · rw [alookup_ainsert_ne _ _ _ _ (fun hh => hq2 hh.symm)]
            have hold := hwf team hteam pl hpl q hqmem
            rw [hid, hm] at hold
            simpa using hold
        · rw [alookup_ainsert_ne _ _ _ _ (fun hh => hid hh.symm)]
          exact hwf team hteam pl hpl q hqmem
  · rw [if_neg hq] at h
    have hs' : s = s' := by
      simpa using h
    exact hs' ▸ hwf

theorem add_value_preserves_wf (s s' : GameEngineStats) (p : GameEnginePlayer)
    (param : String) (v : Int) (hwf : WellFormed s)
    (h : add_value s p param v = .ok s') : WellFormed s' := by
  unfold add_value at h
  cases hg : get_value s p param with
  | error e => rw [hg] at h; exact absurd h (by simp)
  | ok o =>
      cases o with
      | none => rw [hg] at h; exact absurd h (by simp)
      | some cur =>
          rw [hg] at h
          exact set_value_preserves_wf s s' p param (cur + v) hwf h

theorem get_table_matches_layout (s : GameEngineStats) (hwf : WellFormed s) :
    get_table s = .ok (specRender s) := by
  unfold get_table specRender
  have hteams : mapME (fun team =>
      match
        (if team.players.length > 1 then
          match mapME (fun param =>
              foldlME (fun acc player =>
                  match cellValue s player.id param with
                  | .error e => .error e
                  | .ok v => .ok (acc + v)) 0 team.players) s.params with
          | .error e => .error e
          | .ok sums =>
              .ok [{ type := "subheader", cols := Cell.str team.name :: sums.map Cell.int }]
        else .ok [] : Except PyError (List TableRow)) with
      | .error e => .error e
      | .ok subRows =>
          match mapME (fun player =>
              match mapME (fun param => cellValue s player.id param) s.params with
              | .error e => .error e
              | .ok vals =>
                  .ok { type := "row", cols := Cell.str player.name :: vals.map Cell.int })
            team.players with
          | .error e => .error e
          | .ok playerRows => .ok (subRows ++ playerRows)) s.teams
    = .ok (s.teams.map (fun team =>
        (if team.players.length > 1 then
          [{ type := "subheader",
             cols := Cell.str team.name ::
               s.params.map (fun param =>
                 Cell.int ((team.players.map (fun pl => statValue s pl.id param)).sum)) }]
        else []) ++
        team.players.map (fun pl =>
          { type := "row",
            cols := Cell.str pl.name ::
              s.params.map (fun param => Cell.int (statValue s pl.id param)) }))) := by
    apply mapME_congr_ok
    intro team hteam
    have hrows : mapME (fun player =>
        match mapME (fun param => cellValue s player.id param) s.params with
        | .error e => .error e
        | .ok vals =>
            .ok { type := "row", cols := Cell.str player.name :: vals.map Cell.int })
        team.players
      = .ok (team.players.map (fun pl =>
          ({ type := "row",
             cols := Cell.str pl.name ::
               s.params.map (fun param => Cell.int (statValue s pl.id param)) } : TableRow))) := by
      apply mapME_congr_ok
      intro pl hpl
      have hvals : mapME (fun param => cellValue s pl.id param) s.params
          = .ok (s.params.map (fun param => statValue s pl.id param)) := by
        apply mapME_congr_ok
        intro param hparam
        exact cellValue_ok hwf hteam hpl hparam
      rw [hvals]
      simp [List.map_map]
    by_cases hlen : team.players.length > 1
    · have hsums : mapME (fun param =>
          foldlME (fun acc player =>
              match cellValue s player.id param with
              | .error e => .error e
              | .ok v => .ok (acc + v)) 0 team.players) s.params
        = .ok (s.params.map (fun param =>
            (team.players.map (fun pl => statValue s pl.id param)).sum)) := by
        apply mapME_congr_ok
        intro param hparam
        have hfold : foldlME (fun acc player =>
            match cellValue s player.id param with
            | .error e => .error e
            | .ok v => .ok (acc + v)) 0 team.players
          = .ok (team.players.foldl (fun acc pl => acc + statValue s pl.id param) 0) := by
          apply foldlME_congr_ok
          intro b pl hpl
          rw [cellValue_ok hwf hteam hpl hparam]
        rw [hfold, foldl_add_eq_sum]
        simp
      rw [if_pos hlen, hsums, hrows]
      simp [hlen, List.map_map]
    · rw [if_neg hlen, hrows]
      simp [hlen]
  rw [hteams]

theorem lastMessage_send_event (c : GameEngineClient) (t : ℚ) (ev : String) (d : JsonVal) :
    (lastMessage (send_event c t ev d)).bind elapsedField
      = some (pyRound2 (t - c.start_time)) := by
  simp [lastMessage, send_event, send_message, pack_message, elapsedField, alookup,
        GameEngineClient.elapsed, List.getLast?_concat]

theorem pyRound2_zero : pyRound2 0 = 0 := by
  norm_num [pyRound2]

theorem pyRound2_five_halves : pyRound2 (5 / 2) = 5 / 2 := by
  norm_num [pyRound2]

/-- Claim C1: after the join, `timeout_run` decides exactly one of three
mutually exclusive outcomes from the shared mailbox: completion flag unset
means the distinct `TimeoutError` signal; flag set with a recorded error
means re-raising exactly the worker's recorded exception; flag set with no
error means returning the worker's recorded result. -/
theorem timeout_run_trichotomy {α ε : Type} (call : Except ε α) (finishes : Bool) :
    (finishes = false → timeout_run call finishes = RunOutcome.timedOut)
    ∧ (∀ e : ε, finishes = true → call = .error e →
        timeout_run call finishes = RunOutcome.raised e)
    ∧ (∀ v : α, finishes = true → call = .ok v →
        timeout_run call finishes = RunOutcome.returned (some v))
    ∧ (∀ (e : ε) (v : Option α),
        (RunOutcome.timedOut : RunOutcome α ε) ≠ RunOutcome.raised e
        ∧ (RunOutcome.timedOut : RunOutcome α ε) ≠ RunOutcome.returned v
        ∧ (RunOutcome.raised e : RunOutcome α ε) ≠ RunOutcome.returned v) := by
  refine ⟨?_, ?_, ?_, ?_⟩
  · intro hf
    subst hf
    rfl
  · intro e hf hc
    subst hf
    subst hc
    rfl
  · intro v hf hc
    subst hf
    subst hc
    rfl
  · intro e v
    refine ⟨?_, ?_, ?_⟩ <;> intro h <;> exact RunOutcome.noConfusion h

/-- Witness for `timeout_run_trichotomy` at concrete calls. -/
theorem timeout_run_trichotomy_witness :
    timeout_run (Except.ok 1 : Except String Int) false = RunOutcome.timedOut
    ∧ timeout_run (Except.error "boom" : Except String Int) true = RunOutcome.raised "boom"
    ∧ timeout_run (Except.ok 1 : Except String Int) true = RunOutcome.returned (some 1) :=
  ⟨(timeout_run_trichotomy (Except.ok 1) false).1 rfl,
   (timeout_run_trichotomy (Except.error "boom") true).2.1 "boom" rfl rfl,
   (timeout_run_trichotomy (Except.ok 1) true).2.2.1 1 rfl rfl⟩

/-- Claim C2 counterexample: on the spec's own worked example the header
row's first column is the one-space string `" "`, not the empty string
`""` the claim states. -/
theorem get_table_header_blank_cell :
    get_table exStats = Except.ok
      [{ type := "header", cols := [Cell.str " ", Cell.str "a"] },
       { type := "subheader", cols := [Cell.str "Reds", Cell.int 3] },
       { type := "row", cols := [Cell.str "Alice", Cell.int 1] },
       { type := "row", cols := [Cell.str "Bob", Cell.int 2] },
       { type := "row", cols := [Cell.str "Carol", Cell.int 5] }]
    ∧ ({ type := "header", cols := [Cell.str " ", Cell.str "a"] } : TableRow)
        ≠ { type := "header", cols := [Cell.str "", Cell.str "a"] } := by
  refine ⟨rfl, ?_⟩
  decide

/-- Witness for `get_table_matches_layout` on the concrete example state. -/
theorem get_table_matches_layout_witness :
    get_table exStats = Except.ok (specRender exStats) :=
  get_table_matches_layout exStats (by decide)

/-- Claim C3: `start` records the session start timestamp and then emits
the `"started"` event; every published envelope's `elapsed` equals the
publish-time clock minus the start timestamp (so events at `t0` and
`t0 + 2.5` after `start` carry elapsed `0` and `2.5`); before `start` is
ever called the start timestamp is `0`, so elapsed degenerates to the raw
wall-clock value. -/
theorem session_clock_spec (c : GameEngineClient) (t0 t : ℚ) (ev : String) (d : JsonVal)
    (sid : String) (teams : List GameEngineTeam) :
    (start c t0).start_time = t0
    ∧ start c t0 = send_event { c with start_time := t0 } t0 "started"
    ∧ (lastMessage (start c t0)).bind elapsedField = some (pyRound2 (t0 - t0))
    ∧ pyRound2 (t0 - t0) = 0
    ∧ (∀ (c' : GameEngineClient) (t' : ℚ) (ev' : String) (d' : JsonVal),
        (lastMessage (send_event c' t' ev' d')).bind elapsedField
          = some (pyRound2 (t' - c'.start_time)))
    ∧ (lastMessage (send_event (start c t0) (t0 + 5 / 2) ev d)).bind elapsedField
        = some (5 / 2 : ℚ)
    ∧ (mkClient sid teams).start_time = 0
    ∧ GameEngineClient.elapsed (mkClient sid teams) t = t := by
  refine ⟨rfl, rfl, ?_, ?_, ?_, ?_, rfl, ?_⟩
  · rw [show start c t0 = send_event { c with start_time := t0 } t0 "started" from rfl,
        lastMessage_send_event]
  · rw [sub_self, pyRound2_zero]
  · intro c' t' ev' d'
    exact lastMessage_send_event c' t' ev' d'
  · rw [lastMessage_send_event]
    rw [show (start c t0).start_time = t0 from rfl]
    rw [show t0 + 5 / 2 - t0 = 5 / 2 by ring]
    rw [pyRound2_five_halves]
  · simp [mkClient, GameEngineClient.elapsed]

/-- Claim C4: `add_value` on an undeclared parameter fails loudly with the
defined `TypeError` from `None + value` (never a silent no-op). -/
theorem add_value_undeclared_fails (s : GameEngineStats) (p : GameEnginePlayer)
    (param : String) (v : Int) (h : param ∉ s.params) :
    add_value s p param v = .error .typeError := by
  simp [add_value, get_value, h]

/-- Witness for `add_value_undeclared_fails` on the example state. -/
theorem add_value_undeclared_fails_witness :
    add_value exStats exP1 "zzz" 3 = .error .typeError :=
  add_value_undeclared_fails exStats exP1 "zzz" 3 (by decide)

/-- Claim C7: for a player in the table and an undeclared parameter name,
`set_value` is a silent no-op returning the state unchanged without error,
and `get_value` returns the explicit absent signal `none` (not zero, not
an error). -/
theorem undeclared_param_silent (s : GameEngineStats) (p : GameEnginePlayer)
    (param : String) (v : Int) (_hseed : ∃ team ∈ s.teams, p ∈ team.players)
    (h : param ∉ s.params) :
    set_value s p param v = .ok s ∧ get_value s p param = .ok none := by
  constructor <;> simp [set_value, get_value, h]

/-- Witness for `undeclared_param_silent` on the example state. -/
theorem undeclared_param_silent_witness :
    set_value exStats exP1 "zzz" 9 = .ok exStats ∧ get_value exStats exP1 "zzz" = .ok none :=
  undeclared_param_silent exStats exP1 "zzz" 9 (by decide) (by decide)

/-- Claim C10: for a player id never seeded into the table and a declared
parameter, `set_value`, `get_value` and `add_value` all raise `KeyError`
on the per-player lookup: silent rejection applies only to unknown
parameter names, never to unknown players. -/
theorem unknown_player_raises (s : GameEngineStats) (p : GameEnginePlayer)
    (param : String) (v : Int) (hp : alookup s.players p.id = none)
    (hparam : param ∈ s.params) :
    set_value s p param v = .error .keyError
    ∧ get_value s p param = .error .keyError
    ∧ add_value s p param v = .error .keyError := by
  refine ⟨?_, ?_, ?_⟩
  · simp [set_value, hparam, hp]
  · simp [get_value, hparam, hp]
  · simp [add_value, get_value, hparam, hp]

/-- Witness for `unknown_player_raises` with an unseeded player. -/
theorem unknown_player_raises_witness :
    set_value exStats exGhost "a" 4 = .error .keyError
    ∧ get_value exStats exGhost "a" = .error .keyError
    ∧ add_value exStats exGhost "a" 4 = .error .keyError :=
  unknown_player_raises exStats exGhost "a" 4 (by decide) (by decide)

/-- Claim C8: after construction (`mkStats`) and after every `set_params`,
every player of every team is present and bound to the zero map, which
maps exactly the declared parameter names to `0` and nothing else (prior
values discarded); and `set_value` / `add_value` preserve the invariant
that every player has every declared parameter present. -/
theorem declare_params_resets_and_preserves :
    (∀ (s : GameEngineStats) (ps : List String) (team : GameEngineTeam)
        (player : GameEnginePlayer), team ∈ s.teams → player ∈ team.players →
        alookup (set_params s ps).players player.id = some (zeroMap ps))
    ∧ (∀ (teams : List GameEngineTeam) (ps : List String) (team : GameEngineTeam)
        (player : GameEnginePlayer), team ∈ teams → player ∈ team.players →
        alookup (mkStats teams ps).players player.id = some (zeroMap ps))
    ∧ (∀ (ps : List String) (q : String),
        alookup (zeroMap ps) q = if q ∈ ps then some 0 else none)
    ∧ (∀ (s s' : GameEngineStats) (p : GameEnginePlayer) (param : String) (v : Int),
        WellFormed s → set_value s p param v = .ok s' → WellFormed s')
    ∧ (∀ (s s' : GameEngineStats) (p : GameEnginePlayer) (param : String) (v : Int),
        WellFormed s → add_value s p param v = .ok s' → WellFormed s') := by
  refine ⟨?_, ?_, zeroMap_alookup,
    fun s s' p param v => set_value_preserves_wf s s' p param v,
    fun s s' p param v => add_value_preserves_wf s s' p param v⟩
  · intro s ps team player ht hp
    rw [set_params_lookup]
    simp [mem_allIds ht hp]
  · intro teams ps team player ht hp
    unfold mkStats
    rw [set_params_lookup]
    simp [@mem_allIds teams team player ht hp]

/-- Witness for `declare_params_resets_and_preserves` at concrete states. -/
theorem declare_params_resets_and_preserves_witness :
    alookup (set_params exStats ["x", "y"]).players exP1.id = some (zeroMap ["x", "y"])
    ∧ alookup (mkStats [exTeam1, exTeam2] ["a"]).players exP3.id = some (zeroMap ["a"])
    ∧ WellFormed exStats7 :=
  ⟨declare_params_resets_and_preserves.1 exStats ["x", "y"] exTeam1 exP1 (by decide) (by decide),
   declare_params_resets_and_preserves.2.1 [exTeam1, exTeam2] ["a"] exTeam2 exP3
     (by decide) (by decide),
   declare_params_resets_and_preserves.2.2.2.1 exStats exStats7 exP1 "a" 7 (by decide) (by rfl)⟩

/-- Claim C9: `send_event` publishes exactly one envelope of type
`"event"` whose data is `{"type": eventName, "description": description}`
with the description defaulting to `{}`, and `set_winner team` is exactly
`send_event "winner" {"team_id": team.id}`. -/
theorem send_event_envelope (c : GameEngineClient) (t : ℚ) (ev : String) (d : JsonVal)
    (team : GameEngineTeam) :
    (send_event c t ev d).redis.published
      = c.redis.published ++ [("game_engine_notifications",
          pack_message c.redis.session_id "event"
            (.obj [("type", .str ev), ("description", d)]) (c.elapsed t))]
    ∧ send_event c t ev = send_event c t ev (.obj [])
    ∧ set_winner c t team = send_event c t "winner" (.obj [("team_id", .str team.id)]) :=
  ⟨rfl, rfl, rfl⟩

/-- Claim C5: every `send_message` publishes exactly one message on the
channel `"game_engine_notifications"`, a JSON object whose keys are
exactly `session_id`, `type`, `data`, `elapsed`, with `elapsed` equal to
the elapsed time rounded to 2 decimal places. -/
theorem send_message_envelope (rc : RedisClient) (ty : String) (et : ℚ) (d : JsonVal) :
    send_message rc ty et d
      = { rc with published := rc.published
            ++ [("game_engine_notifications", pack_message rc.session_id ty d et)] }
    ∧ pack_message rc.session_id ty d et
      = .obj [("session_id", .str rc.session_id), ("data", d), ("type", .str ty),
              ("elapsed", .num (pyRound2 et))]
    ∧ objKeys (pack_message rc.session_id ty d et) = ["session_id", "data", "type", "elapsed"]
    ∧ ["session_id", "data", "type", "elapsed"].Perm ["session_id", "type", "data", "elapsed"] := by
  refine ⟨rfl, rfl, rfl, by decide⟩

/-- Claim C6: for any seeded player, after `set_params ["a", "b"]` and
`set_value p "a" 5`: `get_value p "a"` is `5`, `get_value p "b"` is `0`,
`get_value p "c"` is absent; a subsequent `add_value p "a" 3` makes
`get_value p "a"` equal `8`. -/
theorem stats_param_flow (teams : List GameEngineTeam) (team : GameEngineTeam)
    (p : GameEnginePlayer) (hteam : team ∈ teams) (hp : p ∈ team.players) :
    ∃ s1, set_value (mkStats teams ["a", "b"]) p "a" 5 = .ok s1
      ∧ get_value s1 p "a" = .ok (some 5)
      ∧ get_value s1 p "b" = .ok (some 0)
      ∧ get_value s1 p "c" = .ok none
      ∧ ∃ s2, add_value s1 p "a" 3 = .ok s2 ∧ get_value s2 p "a" = .ok (some 8) := by
  have hid : p.id ∈ allIds teams := mem_allIds hteam hp
  have h0 : alookup (mkStats teams ["a", "b"]).players p.id = some (zeroMap ["a", "b"]) := by
    unfold mkStats
    rw [set_params_lookup]
    simp [hid]
  have hset1 : set_value (mkStats teams ["a", "b"]) p "a" 5 =
      .ok { mkStats teams ["a", "b"] with
              players := ainsert (mkStats teams ["a", "b"]).players p.id
                [("a", 5), ("b", 0)] } := by
    unfold set_value
    rw [h0]
    rfl
  have hget_a : get_value
      { mkStats teams ["a", "b"] with
          players := ainsert (mkStats teams ["a", "b"]).players p.id
            [("a", 5), ("b", 0)] } p "a" = .ok (some 5) := by
    unfold get_value
    rw [show ({ mkStats teams ["a", "b"] with
          players := ainsert (mkStats teams ["a", "b"]).players p.id
            [("a", 5), ("b", 0)] } : GameEngineStats).players
        = ainsert (mkStats teams ["a", "b"]).players p.id [("a", 5), ("b", 0)] from rfl]
    rw [alookup_ainsert_self]
    rfl
  have hget_b : get_value
      { mkStats teams ["a", "b"] with
          players := ainsert (mkStats teams ["a", "b"]).players p.id
            [("a", 5), ("b", 0)] } p "b" = .ok (some 0) := by
    unfold get_value
    rw [show ({ mkStats teams ["a", "b"] with
          players := ainsert (mkStats teams ["a", "b"]).players p.id
            [("a", 5), ("b", 0)] } : GameEngineStats).players
        = ainsert (mkStats teams ["a", "b"]).players p.id [("a", 5), ("b", 0)] from rfl]
    rw [alookup_ainsert_self]
    rfl
  have hget_c : get_value
      { mkStats teams ["a", "b"] with
          players := ainsert (mkStats teams ["a", "b"]).players p.id
            [("a", 5), ("b", 0)] } p "c" = .ok none := by
    unfold get_value
    rfl
  have hset2 : set_value
      { mkStats teams ["a", "b"] with
          players := ainsert (mkStats teams ["a", "b"]).players p.id
            [("a", 5), ("b", 0)] } p "a" (5 + 3) =
      .ok { mkStats teams ["a", "b"] with
              players := ainsert
                (ainsert (mkStats teams ["a", "b"]).players p.id [("a", 5), ("b", 0)])
                p.id [("a", 8), ("b", 0)] } := by
    unfold set_value
    rw [show ({ mkStats teams ["a", "b"] with
          players := ainsert (mkStats teams ["a", "b"]).players p.id
            [("a", 5), ("b", 0)] } : GameEngineStats).players
        = ainsert (mkStats teams ["a", "b"]).players p.id [("a", 5), ("b", 0)] from rfl]
    rw [alookup_ainsert_self]
    rfl
  have hadd : add_value
      { mkStats teams ["a", "b"] with
          players := ainsert (mkStats teams ["a", "b"]).players p.id
            [("a", 5), ("b", 0)] } p "a" 3 =
      .ok { mkStats teams ["a", "b"] with
              players := ainsert
                (ainsert (mkStats teams ["a", "b"]).players p.id [("a", 5), ("b", 0)])
                p.id [("a", 8), ("b", 0)] } := by
    unfold add_value
    rw [hget_a]
    exact hset2
  have hget2 : get_value
      { mkStats teams ["a", "b"] with
          players := ainsert
            (ainsert (mkStats teams ["a", "b"]).players p.id [("a", 5), ("b", 0)])
            p.id [("a", 8), ("b", 0)] } p "a" = .ok (some 8) := by
    unfold get_value
    rw [show ({ mkStats teams ["a", "b"] with
          players := ainsert
            (ainsert (mkStats teams ["a", "b"]).players p.id [("a", 5), ("b", 0)])
            p.id [("a", 8), ("b", 0)] } : GameEngineStats).players
        = ainsert (ainsert (mkStats teams ["a", "b"]).players p.id [("a", 5), ("b", 0)])
            p.id [("a", 8), ("b", 0)] from rfl]
    rw [alookup_ainsert_self]
    rfl
  exact ⟨_, hset1, hget_a, hget_b, hget_c, _, hadd, hget2⟩

/-- Witness for `stats_param_flow` on the concrete example teams. -/
theorem stats_param_flow_witness :
    ∃ s1, set_value (mkStats [exTeam1, exTeam2] ["a", "b"]) exP1 "a" 5 = .ok s1
      ∧ get_value s1 exP1 "a" = .ok (some 5)
      ∧ get_value s1 exP1 "b" = .ok (some 0)
      ∧ get_value s1 exP1 "c" = .ok none
      ∧ ∃ s2, add_value s1 exP1 "a" 3 = .ok s2 ∧ get_value s2 exP1 "a" = .ok (some 8) :=
  stats_param_flow [exTeam1, exTeam2] exTeam1 exP1 (by decide) (by decide)
